import Mathlib

/-
  Verification development for the Exam-Countdown-Bot repository.

  Shallow embedding of the storage layer (app/db.py SQLite path and
  app/firestore_db.py), the countdown utilities (app/utils.py), the
  scheduler (app/scheduler.py) and the state effect of the list
  handlers (app/handlers.py).  Machine rows are plain Lean structures,
  SQL statements become list transformations, and the framework job
  queue becomes a list of named jobs.
-/

/-! ## Generic helpers -/

/-- Lexicographic order on character lists, by Unicode code point.
This is the byte order SQLite uses for TEXT with the default BINARY
collation on ASCII data, and the documented default document-id order
of a Firestore collection stream. -/
def lexLe : List Char → List Char → Bool
  | [], _ => true
  | _ :: _, [] => false
  | a :: as, b :: bs =>
    if a.toNat < b.toNat then true
    else if b.toNat < a.toNat then false
    else lexLe as bs

theorem lexLe_cons (a b : Char) (as bs : List Char) :
    lexLe (a :: as) (b :: bs) =
      if a.toNat < b.toNat then true
      else if b.toNat < a.toNat then false
      else lexLe as bs := rfl

theorem lexLe_total : ∀ as bs : List Char, lexLe as bs = true ∨ lexLe bs as = true := by
  intro as
  induction as with
  | nil => intro bs; left; rfl
  | cons a as ih =>
    intro bs
    cases bs with
    | nil => right; rfl
    | cons b bs =>
      rcases Nat.lt_trichotomy a.toNat b.toNat with h | h | h
      · left; rw [lexLe_cons, if_pos h]
      · have hab : ¬ a.toNat < b.toNat := by omega
        have hba : ¬ b.toNat < a.toNat := by omega
        rcases ih bs with h2 | h2
        · left; rw [lexLe_cons, if_neg hab, if_neg hba]; exact h2
        · right; rw [lexLe_cons, if_neg hba, if_neg hab]; exact h2
      · right; rw [lexLe_cons, if_pos h]

theorem lexLe_trans : ∀ as bs cs : List Char,
    lexLe as bs = true → lexLe bs cs = true → lexLe as cs = true := by
  intro as
  induction as with
  | nil => intro bs cs _ _; rfl
  | cons a as ih =>
    intro bs cs h1 h2
    cases bs with
    | nil => exact absurd h1 (by simp [lexLe])
    | cons b bs =>
      cases cs with
      | nil => exact absurd h2 (by simp [lexLe])
      | cons c cs =>
        rw [lexLe_cons] at h1 h2 ⊢
        by_cases hab : a.toNat < b.toNat
        · rw [if_pos hab] at h1
          by_cases hbc : b.toNat < c.toNat
          · rw [if_pos (Nat.lt_trans hab hbc)]
          · rw [if_neg hbc] at h2
            by_cases hcb : c.toNat < b.toNat
            · rw [if_pos hcb] at h2; exact absurd h2 (by simp)
            · have hac : a.toNat < c.toNat := by omega
              rw [if_pos hac]
        · rw [if_neg hab] at h1
          by_cases hba : b.toNat < a.toNat
          · rw [if_pos hba] at h1; exact absurd h1 (by simp)
          · rw [if_neg hba] at h1
            by_cases hbc : b.toNat < c.toNat
            · have hac : a.toNat < c.toNat := by omega
              rw [if_pos hac]
            · rw [if_neg hbc] at h2
              by_cases hcb : c.toNat < b.toNat
              · rw [if_pos hcb] at h2; exact absurd h2 (by simp)
              · rw [if_neg hcb] at h2
                have hac : ¬ a.toNat < c.toNat := by omega
                have hca : ¬ c.toNat < a.toNat := by omega
                rw [if_neg hac, if_neg hca]
                exact ih bs cs h1 h2

/-- Maximum of a list of integers, with 0 for the empty list: the value
of the SQL expression COALESCE(MAX(column), 0) over the listed rows. -/
def maxOr0 : List Int → Int
  | [] => 0
  | [x] => x
  | x :: y :: rest => max x (maxOr0 (y :: rest))

theorem le_maxOr0_of_mem : ∀ {l : List Int} {x : Int}, x ∈ l → x ≤ maxOr0 l := by
  intro l
  induction l with
  | nil => intro x hx; cases hx
  | cons a as ih =>
    intro x hx
    cases as with
    | nil =>
      rcases List.mem_cons.mp hx with h | h
      · simp [maxOr0, h]
      · cases h
    | cons b bs =>
      rcases List.mem_cons.mp hx with h | h
      · subst h; exact le_max_left _ _
      · exact le_trans (ih h) (le_max_right _ _)

theorem maxOr0_cons_cons (x y : Int) (rest : List Int) :
    maxOr0 (x :: y :: rest) = max x (maxOr0 (y :: rest)) := rfl

theorem maxOr0_append_singleton (l : List Int) (a : Int) :
    maxOr0 (l ++ [a]) = if l = [] then a else max (maxOr0 l) a := by
  induction l with
  | nil => simp [maxOr0]
  | cons x xs ih =>
    cases xs with
    | nil => simp [maxOr0]
    | cons y ys =>
      have ih2 : maxOr0 ((y :: ys) ++ [a]) = max (maxOr0 (y :: ys)) a := by
        rw [ih]; simp
      have e1 : (x :: y :: ys) ++ [a] = x :: y :: (ys ++ [a]) := rfl
      have e2 : y :: (ys ++ [a]) = (y :: ys) ++ [a] := rfl
      rw [e1, maxOr0_cons_cons, e2, ih2, if_neg (by simp), maxOr0_cons_cons, max_assoc]

theorem list_map_eq_self {α : Type} {l : List α} {f : α → α}
    (h : ∀ x ∈ l, f x = x) : l.map f = l := by
  induction l with
  | nil => rfl
  | cons a as ih =>
    simp only [List.map_cons, h a (List.mem_cons_self a as)]
    rw [ih (fun x hx => h x (List.mem_cons_of_mem a hx))]

theorem find?_append {α : Type} (l1 l2 : List α) (p : α → Bool) :
    (l1 ++ l2).find? p = ((l1.find? p).orElse (fun _ => l2.find? p)) := by
  induction l1 with
  | nil => simp
  | cons a as ih =>
    by_cases h : p a
    · simp [List.find?, h]
    · simp only [List.cons_append, List.find?, Bool.not_eq_true] at *
      simp [h, ih]

/-! ## Configuration defaults (app/config.py) -/

def DEFAULT_TIMEZONE : String := "Europe/Rome"

def DEFAULT_NOTIFY_TIME : String := "09:00"

/-! ## Relational data model (app/db.py, SQLite path)

A row of the users table and a row of the exams table; the database is
the pair of tables.  The global AUTOINCREMENT id of the exams table is
irrelevant to every operation modelled here and is omitted. -/

structure UserRow where
  user_id : Int
  first_name : Option String
  username : Option String
  timezone : String
  notify_time : String
deriving DecidableEq, Repr

structure ExamRow where
  user_id : Int
  user_exam_id : Int
  title : String
  exam_datetime_iso : String
deriving DecidableEq, Repr

structure Db where
  users : List UserRow
  exams : List ExamRow
deriving DecidableEq, Repr

/-- Ids of the exams owned by one user, as listed by
SELECT user_exam_id FROM exams WHERE user_id = ?. -/
def userExamIds (db : Db) (user_id : Int) : List Int :=
  (db.exams.filter (fun e => decide (e.user_id = user_id))).map (fun e => e.user_exam_id)

/-- db.py _next_user_exam_id: SELECT COALESCE(MAX(user_exam_id), 0) + 1
FROM exams WHERE user_id = ?. -/
def next_user_exam_id (db : Db) (user_id : Int) : Int :=
  maxOr0 (userExamIds db user_id) + 1

/-- db.py add_exam (SQLite path): computes the next per-user id and
inserts the row; returns the assigned per-user id.  No validation of
any argument happens here. -/
def add_exam (db : Db) (user_id : Int) (title exam_datetime_iso : String) : Db × Int :=
  let k := next_user_exam_id db user_id
  (⟨db.users, db.exams ++ [⟨user_id, k, title, exam_datetime_iso⟩]⟩, k)

/-- db.py delete_exam (SQLite path): DELETE FROM exams WHERE
user_exam_id = ? AND user_id = ?; returns cursor.rowcount > 0, that is,
whether some row matched the scoped key. -/
def delete_exam (db : Db) (user_exam_id user_id : Int) : Db × Bool :=
  let hit := fun (e : ExamRow) =>
    decide (e.user_exam_id = user_exam_id) && decide (e.user_id = user_id)
  (⟨db.users, db.exams.filter (fun e => ! hit e)⟩, db.exams.any hit)

/-- db.py update_exam (SQLite path): dynamic SET clause over the two
optional fields; returns False immediately when no field is supplied,
otherwise runs the scoped UPDATE and returns cursor.rowcount > 0. -/
def update_exam (db : Db) (user_exam_id user_id : Int)
    (title exam_datetime_iso : Option String) : Db × Bool :=
  if title = none ∧ exam_datetime_iso = none then (db, false)
  else
    let hit := fun (e : ExamRow) =>
      decide (e.user_exam_id = user_exam_id) && decide (e.user_id = user_id)
    let f := fun (e : ExamRow) =>
      if hit e then
        { e with title := title.getD e.title,
                 exam_datetime_iso := exam_datetime_iso.getD e.exam_datetime_iso }
      else e
    (⟨db.users, db.exams.map f⟩, db.exams.any hit)

/-- Order of the exams of one user as read back: ORDER BY
exam_datetime_iso, which on these ASCII strings is byte order. -/
def examOrder (a b : ExamRow) : Prop :=
  lexLe a.exam_datetime_iso.data b.exam_datetime_iso.data = true

instance : DecidableRel examOrder := fun a b =>
  inferInstanceAs (Decidable (_ = true))

instance : IsTotal ExamRow examOrder :=
  ⟨fun a b => lexLe_total _ _⟩

instance : IsTrans ExamRow examOrder :=
  ⟨fun _ _ _ => lexLe_trans _ _ _⟩

/-- db.py get_user_exams (SQLite path): SELECT * FROM exams WHERE
user_id = ? ORDER BY exam_datetime_iso. -/
def get_user_exams (db : Db) (user_id : Int) : List ExamRow :=
  List.insertionSort examOrder (db.exams.filter (fun e => decide (e.user_id = user_id)))

/-- Ascending order on user rows by primary key. -/
def userIdOrder (a b : UserRow) : Prop := a.user_id ≤ b.user_id

instance : DecidableRel userIdOrder := fun a b =>
  inferInstanceAs (Decidable (_ ≤ _))

instance : IsTotal UserRow userIdOrder := ⟨fun a b => le_total a.user_id b.user_id⟩

instance : IsTrans UserRow userIdOrder := ⟨fun _ _ _ => le_trans⟩

/-- db.py get_all_users (SQLite path): SELECT * FROM users ORDER BY user_id. -/
def get_all_users (db : Db) : List UserRow :=
  List.insertionSort userIdOrder db.users

/-- Python truthiness of an optional string argument: None and the
empty string are falsy, everything else truthy. -/
def truthy : Option String → Bool
  | none => false
  | some s => ! decide (s = "")

/-- SQL COALESCE(param, column): the column value only when the bound
parameter is NULL; a bound empty string is not NULL. -/
def coalesce (p old : Option String) : Option String :=
  match p with
  | none => old
  | some v => some v

/-- Placeholder row mirroring _dict_row(None) = an empty record; on the
paths modelled here a re-SELECT after INSERT or UPDATE always finds the
row, so this value is unreachable. -/
def emptyUserRow : UserRow := ⟨0, none, none, "", ""⟩

/-- Effect of the UPDATE statement of get_or_create_user on one row:
UPDATE users SET first_name = COALESCE(?, first_name),
username = COALESCE(?, username) WHERE user_id = ?. -/
def applyNameUpdate (user_id : Int) (first_name username : Option String)
    (u : UserRow) : UserRow :=
  if u.user_id = user_id then
    { u with first_name := coalesce first_name u.first_name,
             username := coalesce username u.username }
  else u

/-- db.py get_or_create_user (SQLite path): SELECT by user_id; when the
row is absent, INSERT it with the configured defaults and the supplied
name fields; when present and at least one supplied name field is
truthy, UPDATE both name fields through COALESCE against the bound
parameters and re-SELECT. -/
def get_or_create_user (db : Db) (user_id : Int)
    (first_name username : Option String) : Db × UserRow :=
  match db.users.find? (fun u => decide (u.user_id = user_id)) with
  | none =>
    let row : UserRow := ⟨user_id, first_name, username, DEFAULT_TIMEZONE, DEFAULT_NOTIFY_TIME⟩
    (⟨db.users ++ [row], db.exams⟩, row)
  | some _ =>
    if truthy first_name || truthy username then
      let users2 := db.users.map (applyNameUpdate user_id first_name username)
      (⟨users2, db.exams⟩,
        (users2.find? (fun u => decide (u.user_id = user_id))).getD emptyUserRow)
    else
      (db, (db.users.find? (fun u => decide (u.user_id = user_id))).getD emptyUserRow)

/-! ## Civil dates and the countdown (app/utils.py)

A naive Python datetime is a date plus a wall-clock time; stored exam
datetimes are the naive strings produced by parse_exam_datetime, read
back with datetime.fromisoformat, and the current instant is
datetime.now(tz).replace(tzinfo=None), the civil date-time in the user
timezone.  Both are embedded as their components. -/

structure Date where
  year : Nat
  month : Nat
  day : Nat
deriving DecidableEq, Repr

structure Time where
  hour : Nat
  minute : Nat
deriving DecidableEq, Repr

structure DateTime where
  date : Date
  time : Time
deriving DecidableEq, Repr

/-- Gregorian leap-year test, as in the CPython datetime module. -/
def isLeapYear (y : Nat) : Bool :=
  y % 4 = 0 && (y % 100 ≠ 0 || y % 400 = 0)

/-- Length of one month, as in the CPython datetime module. -/
def daysInMonth (y m : Nat) : Nat :=
  match m with
  | 1 => 31
  | 2 => if isLeapYear y then 29 else 28
  | 3 => 31
  | 4 => 30
  | 5 => 31
  | 6 => 30
  | 7 => 31
  | 8 => 31
  | 9 => 30
  | 10 => 31
  | 11 => 30
  | 12 => 31
  | _ => 0

/-- Days in the months of year y strictly before month m. -/
def daysBeforeMonth (y m : Nat) : Nat :=
  (List.range (m - 1)).foldl (fun acc k => acc + daysInMonth y (k + 1)) 0

/-- Days before January 1 of year y, as in the CPython datetime module. -/
def daysBeforeYear (y : Nat) : Nat :=
  let yy := y - 1
  yy * 365 + yy / 4 - yy / 100 + yy / 400

/-- Proleptic Gregorian ordinal of a date, day 1 being 0001-01-01, as
computed by date.toordinal in the CPython datetime module. -/
def toordinal (d : Date) : Nat :=
  daysBeforeYear d.year + daysBeforeMonth d.year d.month + d.day

/-- The signed day count (exam_date - today_date).days of utils.py. -/
def dateDiffDays (exam today : Date) : Int :=
  (toordinal exam : Int) - (toordinal today : Int)

/-- utils.py format_exam_countdown: the difference is taken between the
date components only, the time components of both datetimes are
discarded, and the signed day count is rendered as a phrase. -/
def format_exam_countdown (exam_dt now : DateTime) : String × Int :=
  let days : Int := dateDiffDays exam_dt.date now.date
  if days < 0 then ("passed", days)
  else if days = 0 then ("today", 0)
  else if days = 1 then ("tomorrow", 1)
  else (toString days ++ " days left", days)

/-- A stored exam as the message builder consumes it: title plus the
parsed exam datetime. -/
structure ExamView where
  title : String
  exam_dt : DateTime
deriving DecidableEq, Repr

/-- The upcoming list built inside utils.py get_upcoming_exams_message:
keep the exams whose day count is at least 0, each rendered as one
line. -/
def upcomingLines (exams : List ExamView) (now : DateTime) : List String :=
  exams.filterMap (fun e =>
    if (format_exam_countdown e.exam_dt now).2 ≥ 0
    then some ("- " ++ e.title ++ " — " ++ (format_exam_countdown e.exam_dt now).1)
    else none)

/-- utils.py get_upcoming_exams_message: None for an empty list; None
again when no exam survives the day-count filter; otherwise the joined
reminder text. -/
def get_upcoming_exams_message (exams : List ExamView) (now : DateTime) : Option String :=
  if exams = [] then none
  else
    if upcomingLines exams now = [] then none
    else some ("📚 Exam reminder:\n" ++ String.intercalate "\n" (upcomingLines exams now))

/-- The fixed empty-state notice of scheduler.py send_daily_reminder. -/
def EMPTY_REMINDER_TEXT : String :=
  "📭 No upcoming exams to remind you about!\n\nUse ➕ Add Exam to add your exams."

/-- scheduler.py send_daily_reminder, reduced to the text it sends:
the built message when one exists, otherwise the fixed explicit
empty-state notice — the job never stays silent. -/
def send_daily_reminder (exams : List ExamView) (now : DateTime) : String :=
  match get_upcoming_exams_message exams now with
  | some m => m
  | none => EMPTY_REMINDER_TEXT

/-! ## Firestore backend (app/firestore_db.py)

Documents live at users/{str user_id} with an exams subcollection at
users/{str user_id}/exams/{str user_exam_id}.  A collection stream
without order_by yields documents in ascending document-id order, the
documented Firestore default; an explicit order_by sorts by that field. -/

structure FsUser where
  user_id : Int
  timezone : String
  notify_time : String
deriving DecidableEq, Repr

structure FsStore where
  users : List (String × FsUser)
  exams : List ((String × String) × ExamRow)
deriving DecidableEq, Repr

/-- Ascending document-id order of the users collection. -/
def fsKeyOrder (a b : String × FsUser) : Prop :=
  lexLe a.1.data b.1.data = true

instance : DecidableRel fsKeyOrder := fun a b =>
  inferInstanceAs (Decidable (_ = true))

instance : IsTotal (String × FsUser) fsKeyOrder :=
  ⟨fun a b => lexLe_total _ _⟩

instance : IsTrans (String × FsUser) fsKeyOrder :=
  ⟨fun _ _ _ => lexLe_trans _ _ _⟩

/-- The users collection as the stream visits it: no order_by, so the
documents arrive in ascending document-id order. -/
def fs_stream_users (s : FsStore) : List (String × FsUser) :=
  List.insertionSort fsKeyOrder s.users

/-- firestore_db.py get_all_users: collect every streamed user document. -/
def fs_get_all_users (s : FsStore) : List FsUser :=
  (fs_stream_users s).map (fun kv => kv.2)

/-- firestore_db.py delete_exam: delete the document at
users/{str user_id}/exams/{str user_exam_id} and return True; deleting
an absent document is a no-op that still succeeds, so the returned
value is True whether or not anything was removed. -/
def fs_delete_exam (s : FsStore) (user_exam_id user_id : Int) : FsStore × Bool :=
  (⟨s.users,
    s.exams.filter (fun kv =>
      ! (decide (kv.1.1 = toString user_id) && decide (kv.1.2 = toString user_exam_id)))⟩,
   true)

/-- firestore_db.py get_user_exams: stream the exams subcollection of
one user ordered by exam_datetime_iso. -/
def fs_get_user_exams (s : FsStore) (user_id : Int) : List ExamRow :=
  List.insertionSort examOrder
    ((s.exams.filter (fun kv => decide (kv.1.1 = toString user_id))).map (fun kv => kv.2))

/-! ## Scheduler (app/scheduler.py) and list handlers (app/handlers.py)

The framework job queue is a list of named jobs; get_jobs_by_name
filters on the name, schedule_removal removes the job, run_daily and
run_repeating append one job carrying the trigger data. -/

inductive Trigger where
  | daily (notify_time timezone : String)
  | repeating (interval first : Nat)
deriving DecidableEq, Repr

structure Job where
  name : String
  data : Int
  trigger : Trigger
deriving DecidableEq, Repr

/-- The per-user job name daily:{user_id} of scheduler.py. -/
def jobName (user_id : Int) : String :=
  "daily:" ++ toString user_id

/-- job_queue.get_jobs_by_name. -/
def get_jobs_by_name (jq : List Job) (n : String) : List Job :=
  jq.filter (fun j => decide (j.name = n))

/-- scheduler.py schedule_user_reminder: remove every job registered
under the per-user name, then register exactly one new job — a daily
trigger at the given wall-clock time and zone, or a fixed 60-second
repeating trigger when DEBUG_FAST_SCHEDULE is on. -/
def schedule_user_reminder (jq : List Job) (user_id : Int)
    (notify_time_str timezone_str : String) (debug_fast : Bool) : List Job :=
  let job_name := jobName user_id
  let cleared := jq.filter (fun j => ! decide (j.name = job_name))
  let trig := if debug_fast then Trigger.repeating 60 5
              else Trigger.daily notify_time_str timezone_str
  cleared ++ [⟨job_name, user_id, trig⟩]

/-- Modelled from the spec: handlers.py imports ensure_user_scheduled
from app.scheduler and calls it in cmd_list, but scheduler.py in the
sources contains no such function.  The spec describes ensure(userId)
as: if no live entry exists for the user, read the current notify_time
and timezone of that user from the Storage Port and install; a present
entry is left untouched.  The read goes through get_or_create_user as
every other scheduler read does. -/
def ensure_user_scheduled (db : Db) (jq : List Job) (user_id : Int)
    (debug_fast : Bool) : Db × List Job :=
  if get_jobs_by_name jq (jobName user_id) = [] then
    let p := get_or_create_user db user_id none none
    (p.1, schedule_user_reminder jq user_id p.2.notify_time p.2.timezone debug_fast)
  else (db, jq)

/-- handlers.py cmd_list, reduced to its effect on the database and the
job registry: get_or_create_user, read the exams, then
ensure_user_scheduled; the rendered listing text is presentation only. -/
def cmd_list_state (db : Db) (jq : List Job) (user_id : Int)
    (debug_fast : Bool) : Db × List Job :=
  let p := get_or_create_user db user_id none none
  ensure_user_scheduled p.1 jq user_id debug_fast

/-- handlers.py callback_refresh_list, reduced to its effect on the
database and the job registry: get_or_create_user and a read of the
exams; it never touches the job registry. -/
def callback_refresh_list_state (db : Db) (jq : List Job) (user_id : Int) :
    Db × List Job :=
  ((get_or_create_user db user_id none none).1, jq)

/-- Number of live jobs registered under the name of one user. -/
def countNamed (jq : List Job) (user_id : Int) : Nat :=
  jq.countP (fun j => decide (j.name = jobName user_id))

/-- Registry states reachable from the empty registry at process start
through the two mutating operations: install, with any arguments, and
ensure. -/
inductive ReachableJq : List Job → Prop
  | empty : ReachableJq []
  | install (jq : List Job) (u : Int) (nt tz : String) (dbg : Bool) :
      ReachableJq jq → ReachableJq (schedule_user_reminder jq u nt tz dbg)
  | ensure (db : Db) (jq : List Job) (u : Int) (dbg : Bool) :
      ReachableJq jq → ReachableJq (ensure_user_scheduled db jq u dbg).2

/-! ## Additional handler fragments needed by the claims -/

/-- Python str.strip: drop leading and trailing whitespace. -/
def pyStrip (s : String) : String :=
  ⟨((s.data.dropWhile Char.isWhitespace).reverse.dropWhile Char.isWhitespace).reverse⟩

/-- conversations.py receive_title: the conversation accepts a title
only after stripping it; the cancel button ends the flow and a blank
input makes the flow ask again, so no empty title ever reaches
add_exam through this flow.  The accepted title is returned, none
meaning nothing is stored yet. -/
def receive_title_accepts (text : String) : Option String :=
  if pyStrip text = "❌ Cancel" then none
  else if pyStrip text = "" then none
  else some (pyStrip text)

/-! ## Claims -/

/-- C3: the countdown classification of format_exam_countdown is
computed from the date components only — the time components of both
the exam datetime and the current datetime are discarded — and the
signed day count maps to passed when negative, today at 0, tomorrow at
1 and the n days left phrase for n at least 2; in particular an exam
dated today at 23:59 user-local time with now at 00:01 the same day
classifies as today. -/
theorem format_exam_countdown_date_only :
    (∀ (d1 d2 : Date) (t1 t1' t2 t2' : Time),
      format_exam_countdown ⟨d1, t1⟩ ⟨d2, t2⟩ = format_exam_countdown ⟨d1, t1'⟩ ⟨d2, t2'⟩)
    ∧ (∀ exam now : DateTime,
        (dateDiffDays exam.date now.date < 0 →
          format_exam_countdown exam now = ("passed", dateDiffDays exam.date now.date))
        ∧ (dateDiffDays exam.date now.date = 0 →
          format_exam_countdown exam now = ("today", 0))
        ∧ (dateDiffDays exam.date now.date = 1 →
          format_exam_countdown exam now = ("tomorrow", 1))
        ∧ (2 ≤ dateDiffDays exam.date now.date →
          format_exam_countdown exam now =
            (toString (dateDiffDays exam.date now.date) ++ " days left",
             dateDiffDays exam.date now.date)))
    ∧ format_exam_countdown ⟨⟨2026, 1, 15⟩, ⟨23, 59⟩⟩ ⟨⟨2026, 1, 15⟩, ⟨0, 1⟩⟩ = ("today", 0) := by
  refine ⟨fun d1 d2 t1 t1' t2 t2' => rfl, fun exam now => ⟨?_, ?_, ?_, ?_⟩, by decide⟩
  · intro h; simp [format_exam_countdown, h]
  · intro h; simp [format_exam_countdown, h]
  · intro h; simp [format_exam_countdown, h]
  · intro h
    have h0 : ¬ dateDiffDays exam.date now.date < 0 := by omega
    have h1 : dateDiffDays exam.date now.date ≠ 0 := by omega
    have h2 : dateDiffDays exam.date now.date ≠ 1 := by omega
    simp [format_exam_countdown, h0, h1, h2]

/-- C3 witness: a concrete five-day countdown through the theorem. -/
theorem format_exam_countdown_date_only_witness :
    2 ≤ dateDiffDays ⟨2026, 1, 20⟩ ⟨2026, 1, 15⟩
    ∧ format_exam_countdown ⟨⟨2026, 1, 20⟩, ⟨9, 0⟩⟩ ⟨⟨2026, 1, 15⟩, ⟨9, 0⟩⟩
        = ("5 days left", 5) :=
  ⟨by decide,
   by
    have h := (format_exam_countdown_date_only.2.1
      ⟨⟨2026, 1, 20⟩, ⟨9, 0⟩⟩ ⟨⟨2026, 1, 15⟩, ⟨9, 0⟩⟩).2.2.2 (by decide)
    rw [h]; decide⟩

/-- C4 counterexample: add_exam at the storage layer accepts an empty
title — called with one it inserts the row and returns the per-user
id 1 instead of failing and leaving the store untouched. -/
theorem add_exam_empty_title_inserted :
    (add_exam ⟨[], []⟩ 5 "" "2026-01-15T09:00:00").2 = 1
    ∧ (add_exam ⟨[], []⟩ 5 "" "2026-01-15T09:00:00").1.exams
        = [⟨5, 1, "", "2026-01-15T09:00:00"⟩] :=
  ⟨by decide, by decide⟩

/-- C4 amended: add_exam performs no title validation — with any
title, the empty string included, it appends the row carrying the next
per-user id and returns that id; the empty-title rejection lives in the
chat layer, whose add-exam conversation only ever stores a non-empty
title. -/
theorem add_exam_no_storage_validation :
    (∀ (db : Db) (u : Int) (d : String),
      (add_exam db u "" d).1.exams
        = db.exams ++ [⟨u, (add_exam db u "" d).2, "", d⟩]
      ∧ (add_exam db u "" d).2 = next_user_exam_id db u)
    ∧ (∀ (text t : String), receive_title_accepts text = some t → t ≠ "") := by
  constructor
  · intro db u d; exact ⟨rfl, rfl⟩
  · intro text t h
    unfold receive_title_accepts at h
    split_ifs at h with h1 h2
    · injection h with h3
      subst h3
      exact h2

/-- C4 witness: the amended statement at a concrete store and a
concrete conversation input. -/
theorem add_exam_no_storage_validation_witness :
    (add_exam ⟨[], []⟩ 9 "" "2026-02-01T09:00:00").1.exams
      = [⟨9, 1, "", "2026-02-01T09:00:00"⟩]
    ∧ ("Math" : String) ≠ "" :=
  ⟨by
    have h := (add_exam_no_storage_validation.1 ⟨[], []⟩ 9 "2026-02-01T09:00:00").1
    rw [h]; decide,
   add_exam_no_storage_validation.2 "Math" "Math" (by decide)⟩

/-- C5: the Firestore delete_exam contradicts the scoped-delete
contract — deleting exam 1 while scoped to the non-owning user 2
removes nothing (the exam still appears in the list of its owner,
user 1) yet returns True, where the claim and the relational backend
require False; the relational delete_exam at the same input returns
False and keeps the row. -/
theorem fs_delete_exam_cross_user_returns_true :
    fs_delete_exam ⟨[], [(("1", "1"), ⟨1, 1, "Math", "2026-01-15T09:00:00"⟩)]⟩ 1 2
      = (⟨[], [(("1", "1"), ⟨1, 1, "Math", "2026-01-15T09:00:00"⟩)]⟩, true)
    ∧ fs_get_user_exams
        (fs_delete_exam ⟨[], [(("1", "1"), ⟨1, 1, "Math", "2026-01-15T09:00:00"⟩)]⟩ 1 2).1 1
      = [⟨1, 1, "Math", "2026-01-15T09:00:00"⟩]
    ∧ delete_exam ⟨[], [⟨1, 1, "Math", "2026-01-15T09:00:00"⟩]⟩ 1 2
      = (⟨[], [⟨1, 1, "Math", "2026-01-15T09:00:00"⟩]⟩, false) :=
  ⟨by decide, by decide, by decide⟩

/-- C9 counterexample: on the Firestore backend the users stream is in
document-id order, and document ids are decimal strings, so with users
9 and 10 present get_all_users yields ids in the order 10, 9 — not
ascending by user_id. -/
theorem fs_get_all_users_not_ascending :
    (fs_get_all_users
      ⟨[("9", ⟨9, "Europe/Rome", "09:00"⟩), ("10", ⟨10, "Europe/Rome", "09:00"⟩)], []⟩).map
        (fun u => u.user_id) = [10, 9]
    ∧ ¬ List.Sorted (· ≤ ·) ([10, 9] : List Int) :=
  ⟨by decide, by decide⟩

/-- C9 amended: on the relational backends get_all_users returns every
user row sorted ascending by user_id; on the Firestore backend the
stream returns every user document, but in ascending document-id
(string) order, which need not be ascending numeric order. -/
theorem get_all_users_ordering :
    (∀ db : Db,
      List.Sorted userIdOrder (get_all_users db)
      ∧ (get_all_users db).Perm db.users)
    ∧ (∀ s : FsStore,
      List.Sorted fsKeyOrder (fs_stream_users s)
      ∧ (fs_get_all_users s).Perm (s.users.map (fun kv => kv.2))) := by
  constructor
  · intro db
    exact ⟨List.sorted_insertionSort _ _, List.perm_insertionSort _ _⟩
  · intro s
    exact ⟨List.sorted_insertionSort _ _, (List.perm_insertionSort _ _).map _⟩

/-- C10: the daily message builder returns none exactly when no exam
has a day count of at least 0, and the dispatcher then sends the fixed
explicit empty-state notice instead of staying silent; when the builder
produces a message, that message is what is sent. -/
theorem daily_reminder_empty_state_policy :
    ∀ (exams : List ExamView) (now : DateTime),
      (get_upcoming_exams_message exams now = none ↔
        ∀ e ∈ exams, (format_exam_countdown e.exam_dt now).2 < 0)
      ∧ (get_upcoming_exams_message exams now = none →
          send_daily_reminder exams now = EMPTY_REMINDER_TEXT)
      ∧ (∀ m, get_upcoming_exams_message exams now = some m →
          send_daily_reminder exams now = m) := by
  intro exams now
  have key : upcomingLines exams now = []
      ↔ ∀ e ∈ exams, (format_exam_countdown e.exam_dt now).2 < 0 := by
    rw [upcomingLines, List.filterMap_eq_nil_iff]
    constructor
    · intro h e he
      have h2 := h e he
      by_cases hd : (format_exam_countdown e.exam_dt now).2 ≥ 0
      · simp [hd] at h2
      · omega
    · intro h e he
      have hd : ¬ (format_exam_countdown e.exam_dt now).2 ≥ 0 := by
        have h2 := h e he
        omega
      simp [hd]
  refine ⟨?_, ?_, ?_⟩
  · by_cases he : exams = []
    · subst he
      simp [get_upcoming_exams_message]
    · unfold get_upcoming_exams_message
      rw [if_neg he]
      by_cases hu : upcomingLines exams now = []
      · rw [if_pos hu]
        constructor
        · intro _; exact key.mp hu
        · intro _; rfl
      · rw [if_neg hu]
        constructor
        · intro hsome; exact absurd hsome (by simp)
        · intro hall; exact absurd (key.mpr hall) hu
  · intro h; rw [send_daily_reminder, h]
  · intro m h; rw [send_daily_reminder, h]

/-! ## Helper lemmas for the id-assignment and registry claims -/

theorem userExamIds_add_self (db : Db) (u : Int) (t d : String) :
    userExamIds (add_exam db u t d).1 u = userExamIds db u ++ [next_user_exam_id db u] := by
  simp [userExamIds, add_exam, List.filter_append]

theorem next_user_exam_id_add_self (db : Db) (u : Int) (t d : String) :
    next_user_exam_id (add_exam db u t d).1 u = next_user_exam_id db u + 1 := by
  rw [show next_user_exam_id (add_exam db u t d).1 u
        = maxOr0 (userExamIds (add_exam db u t d).1 u) + 1 from rfl,
      userExamIds_add_self, maxOr0_append_singleton]
  by_cases h : userExamIds db u = []
  · rw [if_pos h]
  · rw [if_neg h, max_eq_right (by unfold next_user_exam_id; omega)]

theorem mem_userExamIds {db : Db} {u : Int} {e : ExamRow}
    (he : e ∈ db.exams) (hu : e.user_id = u) :
    e.user_exam_id ∈ userExamIds db u :=
  List.mem_map_of_mem _ (List.mem_filter.mpr ⟨he, by simp [hu]⟩)

theorem exam_id_lt_next {db : Db} {u : Int} {e : ExamRow}
    (he : e ∈ db.exams) (hu : e.user_id = u) :
    e.user_exam_id < next_user_exam_id db u := by
  have h := le_maxOr0_of_mem (mem_userExamIds he hu)
  unfold next_user_exam_id
  omega

theorem countNamed_install (jq : List Job) (u v : Int) (nt tz : String) (dbg : Bool) :
    countNamed (schedule_user_reminder jq v nt tz dbg) u
      = if jobName v = jobName u then 1 else countNamed jq u := by
  simp only [countNamed, schedule_user_reminder]
  rw [List.countP_append]
  by_cases h : jobName v = jobName u
  · rw [if_pos h]
    have h0 : List.countP (fun j => decide (j.name = jobName u))
        (jq.filter (fun j => ! decide (j.name = jobName v))) = 0 := by
      rw [List.countP_eq_zero]
      intro j hj
      have hm := List.mem_filter.mp hj
      have hne : ¬ j.name = jobName v := by simpa using hm.2
      simp [h ▸ hne]
    rw [h0]
    simp [h]
  · rw [if_neg h]
    have h1 : List.countP (fun j => decide (j.name = jobName u))
        [(⟨jobName v, v, if dbg then Trigger.repeating 60 5
                         else Trigger.daily nt tz⟩ : Job)] = 0 := by
      simp [List.countP_cons, h]
    rw [h1, List.countP_filter]
    have h2 : (fun (j : Job) => decide (j.name = jobName u) && ! decide (j.name = jobName v))
        = fun j => decide (j.name = jobName u) := by
      funext j
      by_cases hj : j.name = jobName u
      · have hne : ¬ jobName u = jobName v := fun hh => h hh.symm
        simp [hj, hne]
      · simp [hj]
    rw [h2]
    omega

theorem get_or_create_user_noargs (db : Db) (u : Int) (r : UserRow)
    (h : db.users.find? (fun x => decide (x.user_id = u)) = some r) :
    get_or_create_user db u none none = (db, r) := by
  unfold get_or_create_user
  rw [h]
  simp [truthy, h]

/-- C1: add_exam assigns the per-user exam id by recomputing
max(existing) + 1 at insert time — the id is 1 for a user with no
exams, exceeds every existing id of that user, increases by exactly 1
on an immediately subsequent insert for the same user, is untouched by
inserts of other users, and after deleting the freshly inserted
highest-numbered exam the next insert reuses that same number (the
counter lives in the rows, not in a stored sequence). -/
theorem add_exam_per_user_id_assignment :
    (∀ (db : Db) (u : Int) (t d : String),
      db.exams.filter (fun e => decide (e.user_id = u)) = [] →
      (add_exam db u t d).2 = 1)
    ∧ (∀ (db : Db) (u : Int) (t d : String) (e : ExamRow),
      e ∈ db.exams → e.user_id = u → e.user_exam_id < (add_exam db u t d).2)
    ∧ (∀ (db : Db) (u : Int) (t d t2 d2 : String),
      (add_exam (add_exam db u t d).1 u t2 d2).2 = (add_exam db u t d).2 + 1)
    ∧ (∀ (db : Db) (u v : Int) (t d : String), v ≠ u →
      next_user_exam_id (add_exam db v t d).1 u = next_user_exam_id db u)
    ∧ (∀ (db : Db) (u : Int) (t d t2 d2 : String),
      (add_exam (delete_exam (add_exam db u t d).1 (add_exam db u t d).2 u).1 u t2 d2).2
        = (add_exam db u t d).2) := by
  refine ⟨?_, ?_, ?_, ?_, ?_⟩
  · intro db u t d h
    show next_user_exam_id db u = 1
    unfold next_user_exam_id userExamIds
    rw [h]
    rfl
  · intro db u t d e he hu
    exact exam_id_lt_next he hu
  · intro db u t d t2 d2
    exact next_user_exam_id_add_self db u t d
  · intro db u v t d hvu
    unfold next_user_exam_id userExamIds
    simp [add_exam, List.filter_append, hvu]
  · intro db u t d t2 d2
    have hexams : (delete_exam (add_exam db u t d).1 (add_exam db u t d).2 u).1.exams
        = db.exams := by
      show ((db.exams ++ [(⟨u, next_user_exam_id db u, t, d⟩ : ExamRow)]).filter fun e =>
          ! (decide (e.user_exam_id = next_user_exam_id db u) && decide (e.user_id = u)))
        = db.exams
      rw [List.filter_append]
      have h1 : db.exams.filter (fun e =>
          ! (decide (e.user_exam_id = next_user_exam_id db u) && decide (e.user_id = u)))
          = db.exams := by
        apply List.filter_eq_self.mpr
        intro e he
        by_cases hu : e.user_id = u
        · have hlt := exam_id_lt_next he hu
          have hne : ¬ e.user_exam_id = next_user_exam_id db u := by omega
          simp [hne]
        · simp [hu]
      have h2 : ([⟨u, next_user_exam_id db u, t, d⟩] : List ExamRow).filter (fun e =>
          ! (decide (e.user_exam_id = next_user_exam_id db u) && decide (e.user_id = u)))
          = [] := by
        simp
      rw [h1, h2, List.append_nil]
    have hdel : (delete_exam (add_exam db u t d).1 (add_exam db u t d).2 u).1 = db := by
      have hsplit : (delete_exam (add_exam db u t d).1 (add_exam db u t d).2 u).1
          = (⟨db.users,
              (delete_exam (add_exam db u t d).1 (add_exam db u t d).2 u).1.exams⟩ : Db) :=
        rfl
      rw [hsplit, hexams]
    show next_user_exam_id (delete_exam (add_exam db u t d).1 (add_exam db u t d).2 u).1 u
        = next_user_exam_id db u
    rw [hdel]

/-- C1 witness: the conjuncts of the theorem at a concrete store — a
fresh user gets id 1, an existing id 1 is below the next assigned id,
and the independence conjunct at two distinct users. -/
theorem add_exam_per_user_id_assignment_witness :
    (add_exam ⟨[], []⟩ 1 "Math" "2026-01-15T09:00:00").2 = 1
    ∧ (1 : Int) < (add_exam ⟨[], [⟨1, 1, "Math", "2026-01-15T09:00:00"⟩]⟩ 1 "Bio" "2026-02-01T09:00:00").2
    ∧ next_user_exam_id (add_exam ⟨[], []⟩ 2 "Bio" "2026-02-01T09:00:00").1 1
        = next_user_exam_id ⟨[], []⟩ 1 :=
  ⟨add_exam_per_user_id_assignment.1 ⟨[], []⟩ 1 "Math" "2026-01-15T09:00:00" rfl,
   add_exam_per_user_id_assignment.2.1 ⟨[], [⟨1, 1, "Math", "2026-01-15T09:00:00"⟩]⟩ 1
     "Bio" "2026-02-01T09:00:00" ⟨1, 1, "Math", "2026-01-15T09:00:00"⟩
     (List.mem_singleton.mpr rfl) rfl,
   add_exam_per_user_id_assignment.2.2.2.1 ⟨[], []⟩ 1 2 "Bio" "2026-02-01T09:00:00"
     (by decide)⟩

/-- C2: installing a reminder for a user first cancels every job
registered under that user name and then registers exactly one job, so
two installs in a row leave exactly one live entry for that user, and
every registry state reachable from the empty start through install
and ensure steps carries at most one live entry per user. -/
theorem schedule_registry_at_most_one_entry :
    (∀ (jq : List Job) (u : Int) (nt tz nt2 tz2 : String) (dbg dbg2 : Bool),
      countNamed (schedule_user_reminder
        (schedule_user_reminder jq u nt tz dbg) u nt2 tz2 dbg2) u = 1)
    ∧ (∀ jq : List Job, ReachableJq jq → ∀ u : Int, countNamed jq u ≤ 1) := by
  constructor
  · intro jq u nt tz nt2 tz2 dbg dbg2
    rw [countNamed_install]
    simp
  · intro jq h
    induction h with
    | empty => intro u; simp [countNamed]
    | install jq0 v nt tz dbg _ ih =>
      intro u
      rw [countNamed_install]
      by_cases h2 : jobName v = jobName u
      · simp [h2]
      · rw [if_neg h2]; exact ih u
    | ensure db0 jq0 v dbg _ ih =>
      intro u
      by_cases hq : get_jobs_by_name jq0 (jobName v) = []
      · have hstep : (ensure_user_scheduled db0 jq0 v dbg).2
            = schedule_user_reminder jq0 v
                (get_or_create_user db0 v none none).2.notify_time
                (get_or_create_user db0 v none none).2.timezone dbg := by
          simp [ensure_user_scheduled, hq]
        rw [hstep, countNamed_install]
        by_cases h2 : jobName v = jobName u
        · simp [h2]
        · rw [if_neg h2]; exact ih u
      · have hstep : (ensure_user_scheduled db0 jq0 v dbg).2 = jq0 := by
          simp [ensure_user_scheduled, hq]
        rw [hstep]; exact ih u

/-- C2 witness: two installs in a row at concrete arguments leave one
entry, and a reachable one-install registry carries at most one entry. -/
theorem schedule_registry_at_most_one_entry_witness :
    countNamed (schedule_user_reminder
      (schedule_user_reminder [] 1 "09:00" "Europe/Rome" false) 1 "10:00" "UTC" false) 1 = 1
    ∧ countNamed (schedule_user_reminder [] 1 "09:00" "Europe/Rome" false) 1 ≤ 1 :=
  ⟨schedule_registry_at_most_one_entry.1 [] 1 "09:00" "Europe/Rome" "10:00" "UTC" false false,
   schedule_registry_at_most_one_entry.2 _
     (ReachableJq.install [] 1 "09:00" "Europe/Rome" false ReachableJq.empty) 1⟩

/-- C6: update_exam with only the title supplied rewrites the title of
the matching row and preserves its datetime and identity, leaves every
non-matching row and the whole users table unchanged, and returns
whether a row matched; symmetrically for only the datetime; an update
scoped to a key no row carries — in particular one scoped to a
non-owning user — matches nothing and changes nothing. -/
theorem update_exam_partial_update :
    (∀ (db : Db) (k u : Int) (t : String),
      (update_exam db k u (some t) none).1.users = db.users
      ∧ ((update_exam db k u (some t) none).2 = true ↔
          ∃ e ∈ db.exams, e.user_exam_id = k ∧ e.user_id = u)
      ∧ ∀ (i : Nat) (e : ExamRow), db.exams[i]? = some e →
          ∃ e2 : ExamRow, (update_exam db k u (some t) none).1.exams[i]? = some e2
            ∧ e2.exam_datetime_iso = e.exam_datetime_iso
            ∧ e2.user_id = e.user_id
            ∧ e2.user_exam_id = e.user_exam_id
            ∧ (e.user_exam_id = k ∧ e.user_id = u → e2.title = t)
            ∧ (¬ (e.user_exam_id = k ∧ e.user_id = u) → e2 = e))
    ∧ (∀ (db : Db) (k u : Int) (d : String),
      (update_exam db k u none (some d)).1.users = db.users
      ∧ ((update_exam db k u none (some d)).2 = true ↔
          ∃ e ∈ db.exams, e.user_exam_id = k ∧ e.user_id = u)
      ∧ ∀ (i : Nat) (e : ExamRow), db.exams[i]? = some e →
          ∃ e2 : ExamRow, (update_exam db k u none (some d)).1.exams[i]? = some e2
            ∧ e2.title = e.title
            ∧ e2.user_id = e.user_id
            ∧ e2.user_exam_id = e.user_exam_id
            ∧ (e.user_exam_id = k ∧ e.user_id = u → e2.exam_datetime_iso = d)
            ∧ (¬ (e.user_exam_id = k ∧ e.user_id = u) → e2 = e))
    ∧ (∀ (db : Db) (k v : Int) (ot od : Option String),
      (∀ e ∈ db.exams, ¬ (e.user_exam_id = k ∧ e.user_id = v)) →
      update_exam db k v ot od = (db, false)) := by
  refine ⟨?_, ?_, ?_⟩
  · intro db k u t
    have hne : ¬ ((some t : Option String) = none ∧ (none : Option String) = none) := by simp
    refine ⟨?_, ?_, ?_⟩
    · simp [update_exam, hne]
    · simp [update_exam, hne, List.any_eq_true]
    · intro i e he
      have hmap : (update_exam db k u (some t) none).1.exams
          = db.exams.map (fun e =>
              if decide (e.user_exam_id = k) && decide (e.user_id = u) then
                { e with title := t } else e) := by
        simp [update_exam, hne]
      refine ⟨if decide (e.user_exam_id = k) && decide (e.user_id = u) then
          { e with title := t } else e, ?_, ?_, ?_, ?_, ?_, ?_⟩
      · rw [hmap, List.getElem?_map, he]
        rfl
      · by_cases hh : decide (e.user_exam_id = k) && decide (e.user_id = u) <;> simp [hh]
      · by_cases hh : decide (e.user_exam_id = k) && decide (e.user_id = u) <;> simp [hh]
      · by_cases hh : decide (e.user_exam_id = k) && decide (e.user_id = u) <;> simp [hh]
      · intro hh
        have hcond : (decide (e.user_exam_id = k) && decide (e.user_id = u)) = true := by
          rw [hh.1, hh.2]; simp
        rw [if_pos hcond]
      · intro hh
        have hcond : ¬ ((decide (e.user_exam_id = k) && decide (e.user_id = u)) = true) := by
          simp only [Bool.and_eq_true, decide_eq_true_eq]
          exact hh
        rw [if_neg hcond]
  · intro db k u d
    have hne : ¬ ((none : Option String) = none ∧ (some d : Option String) = none) := by simp
    refine ⟨?_, ?_, ?_⟩
    · simp [update_exam, hne]
    · simp [update_exam, hne, List.any_eq_true]
    · intro i e he
      have hmap : (update_exam db k u none (some d)).1.exams
          = db.exams.map (fun e =>
              if decide (e.user_exam_id = k) && decide (e.user_id = u) then
                { e with exam_datetime_iso := d } else e) := by
        simp [update_exam, hne]
      refine ⟨if decide (e.user_exam_id = k) && decide (e.user_id = u) then
          { e with exam_datetime_iso := d } else e, ?_, ?_, ?_, ?_, ?_, ?_⟩
      · rw [hmap, List.getElem?_map, he]
        rfl
      · by_cases hh : decide (e.user_exam_id = k) && decide (e.user_id = u) <;> simp [hh]
      · by_cases hh : decide (e.user_exam_id = k) && decide (e.user_id = u) <;> simp [hh]
      · by_cases hh : decide (e.user_exam_id = k) && decide (e.user_id = u) <;> simp [hh]
      · intro hh
        have hcond : (decide (e.user_exam_id = k) && decide (e.user_id = u)) = true := by
          rw [hh.1, hh.2]; simp
        rw [if_pos hcond]
      · intro hh
        have hcond : ¬ ((decide (e.user_exam_id = k) && decide (e.user_id = u)) = true) := by
          simp only [Bool.and_eq_true, decide_eq_true_eq]
          exact hh
        rw [if_neg hcond]
  · intro db k v ot od hnone
    by_cases hid : ot = none ∧ od = none
    · simp [update_exam, hid]
    · have hfix : db.exams.map (fun e =>
          if decide (e.user_exam_id = k) && decide (e.user_id = v) then
            { e with title := ot.getD e.title,
                     exam_datetime_iso := od.getD e.exam_datetime_iso }
          else e) = db.exams := by
        apply list_map_eq_self
        intro e he
        have hcond : ¬ ((decide (e.user_exam_id = k) && decide (e.user_id = v)) = true) := by
          simp only [Bool.and_eq_true, decide_eq_true_eq]
          exact hnone e he
        rw [if_neg hcond]
      have hany : db.exams.any (fun e =>
          decide (e.user_exam_id = k) && decide (e.user_id = v)) = false := by
        rw [List.any_eq_false]
        intro e he
        simpa using hnone e he
      have hstep : update_exam db k v ot od
          = (⟨db.users, db.exams.map (fun e =>
              if decide (e.user_exam_id = k) && decide (e.user_id = v) then
                { e with title := ot.getD e.title,
                         exam_datetime_iso := od.getD e.exam_datetime_iso }
              else e)⟩,
             db.exams.any (fun e =>
               decide (e.user_exam_id = k) && decide (e.user_id = v))) := by
        unfold update_exam
        rw [if_neg hid]
      rw [hstep, hfix, hany]

/-- C6 witness: a one-row store updated in title only, in datetime
only, and through the key of a non-owning user. -/
theorem update_exam_partial_update_witness :
    (update_exam ⟨[], [⟨1, 1, "Math", "2026-01-15T09:00:00"⟩]⟩ 1 1 (some "Bio") none).2 = true
    ∧ (update_exam ⟨[], [⟨1, 1, "Math", "2026-01-15T09:00:00"⟩]⟩ 1 1
        none (some "2026-02-01T10:00:00")).2 = true
    ∧ update_exam ⟨[], [⟨1, 1, "Math", "2026-01-15T09:00:00"⟩]⟩ 1 2 (some "Bio") none
        = (⟨[], [⟨1, 1, "Math", "2026-01-15T09:00:00"⟩]⟩, false) :=
  ⟨(update_exam_partial_update.1 ⟨[], [⟨1, 1, "Math", "2026-01-15T09:00:00"⟩]⟩ 1 1 "Bio").2.1.mpr
      ⟨⟨1, 1, "Math", "2026-01-15T09:00:00"⟩, List.mem_singleton.mpr rfl, rfl, rfl⟩,
   (update_exam_partial_update.2.1 ⟨[], [⟨1, 1, "Math", "2026-01-15T09:00:00"⟩]⟩ 1 1
      "2026-02-01T10:00:00").2.1.mpr
      ⟨⟨1, 1, "Math", "2026-01-15T09:00:00"⟩, List.mem_singleton.mpr rfl, rfl, rfl⟩,
   update_exam_partial_update.2.2 ⟨[], [⟨1, 1, "Math", "2026-01-15T09:00:00"⟩]⟩ 1 2
      (some "Bio") none (by decide)⟩

/-- C7 counterexample: the inline refresh callback is a user-facing
list read that does not invoke ensure — with a durable user record
present and an empty registry it leaves the registry empty, while the
list command on the same state installs an entry. -/
theorem refresh_list_read_skips_ensure :
    (callback_refresh_list_state ⟨[⟨1, none, none, "Europe/Rome", "09:00"⟩], []⟩ [] 1).2 = []
    ∧ (cmd_list_state ⟨[⟨1, none, none, "Europe/Rome", "09:00"⟩], []⟩ [] 1 false).2
        = [⟨jobName 1, 1, Trigger.daily "09:00" "Europe/Rome"⟩] :=
  ⟨rfl, by decide⟩

/-- C7 amended: the list command handler — serving both the /list
command and the List Exams button — invokes ensure, which leaves a
present live entry untouched and, when no live entry exists, installs
one from the notify time and timezone stored for the user, leaving
exactly one live entry; the inline refresh and delete-selection list
callbacks do not invoke ensure. -/
theorem cmd_list_self_heals_schedule :
    (∀ (db : Db) (jq : List Job) (u : Int) (dbg : Bool),
      get_jobs_by_name jq (jobName u) ≠ [] →
      (cmd_list_state db jq u dbg).2 = jq)
    ∧ (∀ (db : Db) (jq : List Job) (u : Int) (dbg : Bool) (r : UserRow),
      get_jobs_by_name jq (jobName u) = [] →
      db.users.find? (fun x => decide (x.user_id = u)) = some r →
      (cmd_list_state db jq u dbg).2
          = schedule_user_reminder jq u r.notify_time r.timezone dbg
        ∧ countNamed (cmd_list_state db jq u dbg).2 u = 1)
    ∧ (∀ (db : Db) (jq : List Job) (u : Int),
      (callback_refresh_list_state db jq u).2 = jq) := by
  refine ⟨?_, ?_, ?_⟩
  · intro db jq u dbg h
    simp [cmd_list_state, ensure_user_scheduled, h]
  · intro db jq u dbg r hq hr
    have hg : get_or_create_user db u none none = (db, r) :=
      get_or_create_user_noargs db u r hr
    have hmain : (cmd_list_state db jq u dbg).2
        = schedule_user_reminder jq u r.notify_time r.timezone dbg := by
      simp [cmd_list_state, hg, ensure_user_scheduled, hq]
    refine ⟨hmain, ?_⟩
    rw [hmain, countNamed_install]
    simp
  · intro db jq u
    rfl

/-- C7 witness: on a store holding user 2 and an empty registry, the
list command installs the entry built from the stored preferences. -/
theorem cmd_list_self_heals_schedule_witness :
    get_jobs_by_name ([] : List Job) (jobName 2) = []
    ∧ (cmd_list_state ⟨[⟨2, none, none, "UTC", "08:30"⟩], []⟩ [] 2 false).2
        = schedule_user_reminder [] 2 "08:30" "UTC" false :=
  ⟨rfl,
   (cmd_list_self_heals_schedule.2.1 ⟨[⟨2, none, none, "UTC", "08:30"⟩], []⟩ [] 2 false
      ⟨2, none, none, "UTC", "08:30"⟩ rfl (by decide)).1⟩

/-! ## Helper lemmas for the get_or_create_user claim -/

theorem find?_map_pred {α : Type} (l : List α) (f : α → α) (p : α → Bool)
    (hf : ∀ x, p (f x) = p x) : (l.map f).find? p = (l.find? p).map f := by
  induction l with
  | nil => rfl
  | cons a as ih =>
    by_cases h : p a = true
    · rw [List.map_cons, List.find?_cons_of_pos _ (by rw [hf]; exact h),
          List.find?_cons_of_pos _ h]
      rfl
    · rw [List.map_cons, List.find?_cons_of_neg _ (by rw [hf]; exact h),
          List.find?_cons_of_neg _ h, ih]

theorem coalesce_idem (p o : Option String) : coalesce p (coalesce p o) = coalesce p o := by
  cases p <;> rfl

theorem applyNameUpdate_user_id (uid : Int) (fn un : Option String) (u : UserRow) :
    (applyNameUpdate uid fn un u).user_id = u.user_id := by
  unfold applyNameUpdate
  by_cases h : u.user_id = uid <;> simp [h]

theorem applyNameUpdate_timezone (uid : Int) (fn un : Option String) (u : UserRow) :
    (applyNameUpdate uid fn un u).timezone = u.timezone := by
  unfold applyNameUpdate
  by_cases h : u.user_id = uid <;> simp [h]

theorem applyNameUpdate_notify_time (uid : Int) (fn un : Option String) (u : UserRow) :
    (applyNameUpdate uid fn un u).notify_time = u.notify_time := by
  unfold applyNameUpdate
  by_cases h : u.user_id = uid <;> simp [h]

theorem applyNameUpdate_idem (uid : Int) (fn un : Option String) (u : UserRow) :
    applyNameUpdate uid fn un (applyNameUpdate uid fn un u)
      = applyNameUpdate uid fn un u := by
  unfold applyNameUpdate
  by_cases h : u.user_id = uid
  · rw [if_pos h, if_pos h, coalesce_idem, coalesce_idem]
  · rw [if_neg h, if_neg h]

theorem find?_map_applyNameUpdate (db : Db) (uid : Int) (fn un : Option String) :
    (db.users.map (applyNameUpdate uid fn un)).find? (fun x => decide (x.user_id = uid))
      = (db.users.find? (fun x => decide (x.user_id = uid))).map (applyNameUpdate uid fn un) :=
  find?_map_pred db.users (applyNameUpdate uid fn un) _
    (fun x => by rw [applyNameUpdate_user_id])

theorem get_or_create_user_absent (db : Db) (uid : Int) (fn un : Option String)
    (hfind : db.users.find? (fun x => decide (x.user_id = uid)) = none) :
    get_or_create_user db uid fn un
      = (⟨db.users ++ [(⟨uid, fn, un, DEFAULT_TIMEZONE, DEFAULT_NOTIFY_TIME⟩ : UserRow)], db.exams⟩,
         ⟨uid, fn, un, DEFAULT_TIMEZONE, DEFAULT_NOTIFY_TIME⟩) := by
  unfold get_or_create_user
  rw [hfind]

theorem get_or_create_user_found (db : Db) (uid : Int) (fn un : Option String) (r : UserRow)
    (hfind : db.users.find? (fun x => decide (x.user_id = uid)) = some r) :
    get_or_create_user db uid fn un
      = if truthy fn || truthy un then
          (⟨db.users.map (applyNameUpdate uid fn un), db.exams⟩,
           ((db.users.map (applyNameUpdate uid fn un)).find?
             (fun x => decide (x.user_id = uid))).getD emptyUserRow)
        else (db, r) := by
  unfold get_or_create_user
  rw [hfind]
  rfl

theorem get_or_create_user_found_update (db : Db) (uid : Int) (fn un : Option String)
    (r : UserRow)
    (hfind : db.users.find? (fun x => decide (x.user_id = uid)) = some r)
    (hg : (truthy fn || truthy un) = true) :
    get_or_create_user db uid fn un
      = (⟨db.users.map (applyNameUpdate uid fn un), db.exams⟩,
         applyNameUpdate uid fn un r) := by
  rw [get_or_create_user_found db uid fn un r hfind, if_pos hg,
      find?_map_applyNameUpdate, hfind]
  rfl

/-- C8 counterexample: with user 1 stored as Alice, a call supplying a
blank (empty-string) display name together with a non-blank handle
passes the truthiness guard, and COALESCE keeps the bound empty string
because it is not NULL — the stored name Alice is overwritten by the
blank value. -/
theorem blank_name_overwrites_stored_name :
    (get_or_create_user ⟨[⟨1, some "Alice", some "alice", "Europe/Rome", "09:00"⟩], []⟩
        1 (some "") (some "bob")).2.first_name = some ""
    ∧ (get_or_create_user ⟨[⟨1, some "Alice", some "alice", "Europe/Rome", "09:00"⟩], []⟩
        1 (some "") (some "bob")).1.users
      = [⟨1, some "", some "bob", "Europe/Rome", "09:00"⟩] :=
  ⟨by decide, by decide⟩

/-- C8 amended: get_or_create_user returns the existing record with
timezone and notify_time untouched; an absent user is inserted with the
defaults Europe/Rome and 09:00; when every supplied name value is blank
or missing nothing is updated; when at least one supplied value is
truthy, each supplied (non-NULL) value replaces the stored one — so a
supplied empty string does overwrite when the other supplied field is
non-blank; the operation is idempotent. -/
theorem get_or_create_user_amended_spec :
    (∀ (db : Db) (uid : Int) (fn un : Option String) (r : UserRow),
      db.users.find? (fun x => decide (x.user_id = uid)) = some r →
        (get_or_create_user db uid fn un).2.timezone = r.timezone
        ∧ (get_or_create_user db uid fn un).2.notify_time = r.notify_time)
    ∧ (∀ (db : Db) (uid : Int) (fn un : Option String),
      db.users.find? (fun x => decide (x.user_id = uid)) = none →
        get_or_create_user db uid fn un
          = (⟨db.users ++ [⟨uid, fn, un, "Europe/Rome", "09:00"⟩], db.exams⟩,
             ⟨uid, fn, un, "Europe/Rome", "09:00"⟩))
    ∧ (∀ (db : Db) (uid : Int) (fn un : Option String) (r : UserRow),
      db.users.find? (fun x => decide (x.user_id = uid)) = some r →
      truthy fn = false → truthy un = false →
        get_or_create_user db uid fn un = (db, r))
    ∧ (∀ (db : Db) (uid : Int) (v : String) (un : Option String) (r : UserRow),
      db.users.find? (fun x => decide (x.user_id = uid)) = some r →
      truthy un = true →
        (get_or_create_user db uid (some v) un).2.first_name = some v)
    ∧ (∀ (db : Db) (uid : Int) (fn un : Option String),
      get_or_create_user (get_or_create_user db uid fn un).1 uid fn un
        = get_or_create_user db uid fn un) := by
  refine ⟨?_, ?_, ?_, ?_, ?_⟩
  · intro db uid fn un r hfind
    by_cases hg : (truthy fn || truthy un) = true
    · rw [get_or_create_user_found_update db uid fn un r hfind hg]
      exact ⟨applyNameUpdate_timezone uid fn un r, applyNameUpdate_notify_time uid fn un r⟩
    · rw [get_or_create_user_found db uid fn un r hfind, if_neg hg]
      exact ⟨rfl, rfl⟩
  · intro db uid fn un hfind
    exact get_or_create_user_absent db uid fn un hfind
  · intro db uid fn un r hfind h1 h2
    have hg : ¬ ((truthy fn || truthy un) = true) := by
      rw [h1, h2]
      simp
    rw [get_or_create_user_found db uid fn un r hfind, if_neg hg]
  · intro db uid v un r hfind hun
    have hg : (truthy (some v) || truthy un) = true := by
      rw [hun]
      simp
    rw [get_or_create_user_found_update db uid (some v) un r hfind hg]
    have hr : r.user_id = uid := by
      have h := List.find?_some hfind
      simpa using h
    unfold applyNameUpdate
    rw [if_pos hr]
    rfl
  · intro db uid fn un
    cases hfind : db.users.find? (fun x => decide (x.user_id = uid)) with
    | none =>
      rw [get_or_create_user_absent db uid fn un hfind]
      have hrow : applyNameUpdate uid fn un
          ⟨uid, fn, un, DEFAULT_TIMEZONE, DEFAULT_NOTIFY_TIME⟩
          = ⟨uid, fn, un, DEFAULT_TIMEZONE, DEFAULT_NOTIFY_TIME⟩ := by
        unfold applyNameUpdate
        rw [if_pos rfl]
        cases fn <;> cases un <;> rfl
      have hfind2 : ((⟨db.users ++ [(⟨uid, fn, un, DEFAULT_TIMEZONE, DEFAULT_NOTIFY_TIME⟩ : UserRow)],
          db.exams⟩ : Db)).users.find? (fun x => decide (x.user_id = uid))
          = some ⟨uid, fn, un, DEFAULT_TIMEZONE, DEFAULT_NOTIFY_TIME⟩ := by
        show (db.users ++ [(⟨uid, fn, un, DEFAULT_TIMEZONE, DEFAULT_NOTIFY_TIME⟩ : UserRow)]).find?
            (fun x => decide (x.user_id = uid))
          = some ⟨uid, fn, un, DEFAULT_TIMEZONE, DEFAULT_NOTIFY_TIME⟩
        rw [find?_append, hfind]
        simp
      by_cases hg : (truthy fn || truthy un) = true
      · rw [get_or_create_user_found_update _ uid fn un _ hfind2 hg]
        have hmap : (db.users ++ [(⟨uid, fn, un, DEFAULT_TIMEZONE, DEFAULT_NOTIFY_TIME⟩ : UserRow)]).map
            (applyNameUpdate uid fn un)
            = db.users ++ [(⟨uid, fn, un, DEFAULT_TIMEZONE, DEFAULT_NOTIFY_TIME⟩ : UserRow)] := by
          apply list_map_eq_self
          intro x hx
          rcases List.mem_append.mp hx with hx | hx
          · have hne := List.find?_eq_none.mp hfind x hx
            have : ¬ x.user_id = uid := by simpa using hne
            unfold applyNameUpdate
            rw [if_neg this]
          · rw [List.mem_singleton.mp hx]
            exact hrow
        rw [show ((⟨db.users ++ [(⟨uid, fn, un, DEFAULT_TIMEZONE, DEFAULT_NOTIFY_TIME⟩ : UserRow)],
            db.exams⟩ : Db)).users
            = db.users ++ [(⟨uid, fn, un, DEFAULT_TIMEZONE, DEFAULT_NOTIFY_TIME⟩ : UserRow)] from rfl,
          hmap, hrow]
      · rw [get_or_create_user_found _ uid fn un _ hfind2, if_neg hg]
    | some r =>
      by_cases hg : (truthy fn || truthy un) = true
      · rw [get_or_create_user_found_update db uid fn un r hfind hg]
        have hfind2 : ((⟨db.users.map (applyNameUpdate uid fn un), db.exams⟩ : Db)).users.find?
            (fun x => decide (x.user_id = uid)) = some (applyNameUpdate uid fn un r) := by
          show (db.users.map (applyNameUpdate uid fn un)).find?
              (fun x => decide (x.user_id = uid)) = some (applyNameUpdate uid fn un r)
          rw [find?_map_applyNameUpdate, hfind]
          rfl
        rw [get_or_create_user_found_update _ uid fn un _ hfind2 hg]
        have hmap : (db.users.map (applyNameUpdate uid fn un)).map (applyNameUpdate uid fn un)
            = db.users.map (applyNameUpdate uid fn un) := by
          rw [List.map_map]
          exact List.map_congr_left (fun a _ => applyNameUpdate_idem uid fn un a)
        rw [show ((⟨db.users.map (applyNameUpdate uid fn un), db.exams⟩ : Db)).users
            = db.users.map (applyNameUpdate uid fn un) from rfl,
          hmap, applyNameUpdate_idem]
      · rw [get_or_create_user_found db uid fn un r hfind, if_neg hg,
            get_or_create_user_found db uid fn un r hfind, if_neg hg]

/-- C8 witness: the amended statement applied at concrete stores — a
fresh user is created with the defaults, an all-blank update is a
no-op, and a repeated call is a no-op. -/
theorem get_or_create_user_amended_spec_witness :
    get_or_create_user ⟨[], []⟩ 7 none none
      = (⟨[⟨7, none, none, "Europe/Rome", "09:00"⟩], []⟩,
         ⟨7, none, none, "Europe/Rome", "09:00"⟩)
    ∧ get_or_create_user ⟨[⟨3, some "Ann", none, "UTC", "10:00"⟩], []⟩ 3 (some "") none
      = (⟨[⟨3, some "Ann", none, "UTC", "10:00"⟩], []⟩, ⟨3, some "Ann", none, "UTC", "10:00"⟩)
    ∧ get_or_create_user (get_or_create_user ⟨[], []⟩ 7 none none).1 7 none none
      = get_or_create_user ⟨[], []⟩ 7 none none :=
  ⟨by
    have h := get_or_create_user_amended_spec.2.1 ⟨[], []⟩ 7 none none rfl
    simpa using h,
   get_or_create_user_amended_spec.2.2.1 ⟨[⟨3, some "Ann", none, "UTC", "10:00"⟩], []⟩ 3
     (some "") none ⟨3, some "Ann", none, "UTC", "10:00"⟩ (by decide) (by decide) (by decide),
   get_or_create_user_amended_spec.2.2.2.2 ⟨[], []⟩ 7 none none⟩

/-- C10 witness: on an empty exam list the builder yields none and the
dispatcher sends the fixed empty-state notice. -/
theorem daily_reminder_empty_state_policy_witness :
    get_upcoming_exams_message ([] : List ExamView) ⟨⟨2026, 1, 14⟩, ⟨9, 0⟩⟩ = none
    ∧ send_daily_reminder ([] : List ExamView) ⟨⟨2026, 1, 14⟩, ⟨9, 0⟩⟩ = EMPTY_REMINDER_TEXT :=
  ⟨rfl, (daily_reminder_empty_state_policy [] ⟨⟨2026, 1, 14⟩, ⟨9, 0⟩⟩).2.1 rfl⟩
